import Mathlib

/-!
Verification development for the farmyard-fight-club multiplayer core.

Shallow embedding of:
* the room hub (src/server/index.ts): connection records, room membership,
  the join/state message handlers and broadcast fan-out;
* the entity state machine (src/src/game/Character.ts): changeState,
  changeAnimation, the animation-finished handler, the mixer tick,
  the local player's collision scan, RemotePlayer.applySnapshot and
  Game.buildSnapshot.

Numeric fields of the JavaScript source (IEEE doubles) are modelled as
rationals; world transforms of bounding-box helpers are modelled as the
translation by the owning object's position.
-/

namespace FFC

/-- A 3-component vector (position / Euler rotation triple). -/
structure Vec3 where
  x : Rat
  y : Rat
  z : Rat
deriving DecidableEq, Repr

/-- Componentwise sum. -/
def Vec3.add (a b : Vec3) : Vec3 := ⟨a.x + b.x, a.y + b.y, a.z + b.z⟩

/-- Scale by a rational. -/
def Vec3.smul (a : Vec3) (k : Rat) : Vec3 := ⟨a.x * k, a.y * k, a.z * k⟩

/-- The wire `PlayerSnapshot` record (src/server/index.ts lines 6-15):
id, position, rotation, state label, time scale, walk-speed factor,
model key, timestamp. -/
structure PlayerSnapshot where
  id : String
  position : Vec3
  rotation : Vec3
  state : String
  timeScale : Rat
  walkSpeed : Rat
  model : String
  timestamp : Rat
deriving DecidableEq, Repr

/-- Hub-to-client messages (src/server/index.ts lines 22-26). -/
inductive ServerMsg where
  | initMsg (id : String) (roomId : String) (players : List PlayerSnapshot)
  | playerUpdate (player : PlayerSnapshot)
  | playerLeave (id : String)
  | pong (timestamp : Rat)
deriving DecidableEq, Repr

/-- One delivered message: recipient connection id and payload.  The
embedding returns the list of sends a handler performs. -/
structure Output where
  recipient : String
  msg : ServerMsg
deriving DecidableEq, Repr

/-- The hub's per-connection record (src/server/index.ts lines 28-34).
`sockOpen` models `socket.readyState === WebSocket.OPEN`. -/
structure ClientRecord where
  id : String
  snapshot : Option PlayerSnapshot
  roomId : String
  joined : Bool
  sockOpen : Bool
deriving DecidableEq, Repr

/-- The hub's `clients` map, in insertion order (JavaScript Map iteration
order). -/
abbrev Hub := List ClientRecord

/-- Look up the record of a connection id (the JS handler closes over its
own record; we recover it from the map). -/
def findClient (h : Hub) (cid : String) : Option ClientRecord :=
  h.find? (fun r => r.id == cid)

/-- Mutate the record(s) carrying the given id in place. -/
def updateClient (h : Hub) (cid : String) (f : ClientRecord → ClientRecord) : Hub :=
  h.map (fun r => if r.id == cid then f r else r)

/-- `peersInRoom` (src/server/index.ts lines 52-59): joined records of the
room with an open socket, minus the excluded id. -/
def peersInRoom (h : Hub) (roomId : String) (excludeId : Option String) : List ClientRecord :=
  h.filter (fun c =>
    (some c.id != excludeId) && c.joined && (c.roomId == roomId) && c.sockOpen)

/-- Comparator used by `playersInRoom`'s sort:
`(a, b) => a.timestamp - b.timestamp`, i.e. ascending timestamp. -/
def snapLE (a b : PlayerSnapshot) : Prop := a.timestamp ≤ b.timestamp

instance : DecidableRel snapLE := fun a b => inferInstanceAs (Decidable (a.timestamp ≤ b.timestamp))

instance : IsTotal PlayerSnapshot snapLE := ⟨fun a b => le_total a.timestamp b.timestamp⟩

instance : IsTrans PlayerSnapshot snapLE := ⟨fun _ _ _ hab hbc => le_trans hab hbc⟩

/-- `playersInRoom` (src/server/index.ts lines 61-66): snapshots of the
joined, snapshot-bearing records of the room, minus the excluded id,
sorted ascending by timestamp (stable sort, as JavaScript Array.sort). -/
def playersInRoom (h : Hub) (roomId : String) (excludeId : Option String) : List PlayerSnapshot :=
  ((h.filter (fun c =>
      c.joined && c.snapshot.isSome && (c.roomId == roomId) && (some c.id != excludeId))).filterMap
    (fun c => c.snapshot)).insertionSort snapLE

/-- `broadcast` (src/server/index.ts lines 68-73): send the payload to
every peer of the room except the excluded id. -/
def broadcast (message : ServerMsg) (h : Hub) (roomId : String) (excludeId : Option String) :
    List Output :=
  (peersInRoom h roomId excludeId).map (fun c => ⟨c.id, message⟩)

/-- `parsed.room?.trim() || DEFAULT_ROOM` (src/server/index.ts line 88):
absent or blank-after-trim room names fall back to the default room. -/
def resolveRoom (defRoom : String) (room : Option String) : String :=
  match room with
  | none => defRoom
  | some r => if r.trim = "" then defRoom else r.trim

/-- The `join` case of the hub message handler (src/server/index.ts lines
87-104).  If the connection moves room while holding a snapshot, first
broadcast `player-leave` to the old room (excluding self) and clear the
snapshot; then mark joined, set the room, and reply with `init` listing
the other players of the new room. -/
def handleJoin (defRoom : String) (h : Hub) (cid : String) (room : Option String) :
    Hub × List Output :=
  match findClient h cid with
  | none => (h, [])
  | some rec =>
    let nextRoom := resolveRoom defRoom room
    let previousRoom := rec.roomId
    let moved := previousRoom != nextRoom && rec.snapshot.isSome
    let leaveOuts :=
      if moved then broadcast (ServerMsg.playerLeave cid) h previousRoom (some cid) else []
    let h1 := if moved then updateClient h cid (fun r => { r with snapshot := none }) else h
    let h2 := updateClient h1 cid (fun r => { r with roomId := nextRoom, joined := true })
    let others := playersInRoom h2 nextRoom (some cid)
    (h2, leaveOuts ++ [⟨cid, ServerMsg.initMsg cid nextRoom others⟩])

/-- The `state` case of the hub message handler (src/server/index.ts lines
106-115): ignored when not joined; otherwise the client-supplied id is
overwritten with the connection's own id, the snapshot is stored, and
`player-update` is broadcast to the rest of the room. -/
def handleState (h : Hub) (cid : String) (player : PlayerSnapshot) :
    Hub × List Output :=
  match findClient h cid with
  | none => (h, [])
  | some rec =>
    if rec.joined then
      let snap : PlayerSnapshot := { player with id := cid }
      let h1 := updateClient h cid (fun r => { r with snapshot := some snap })
      (h1, broadcast (ServerMsg.playerUpdate snap) h1 rec.roomId (some cid))
    else (h, [])

/-! ## Entity state machine (src/src/game/Character.ts) -/

/-- Character kinds (`CharacterKind`): local player, background NPC, or
remote proxy. -/
inductive CharacterKind where
  | player
  | npc
  | remote
deriving DecidableEq, Repr

/-- `AnimationOptions` (src/src/game/Character.ts lines 7-11). -/
structure AnimationOptions where
  walkSpeed : Option Rat := none
  timeScale : Option Rat := none
  force : Bool := false
deriving DecidableEq, Repr

/-- The state of the active three.js `AnimationAction`: clip name,
playback time, clip duration, signed time scale, the one-shot flags set
for death (`LoopOnce` and `clampWhenFinished`), and whether the action is
running.  `reset().play()` yields time 0 and running. -/
structure AnimAction where
  name : String
  time : Rat
  duration : Rat
  timeScale : Rat
  loopOnce : Bool
  clampWhenFinished : Bool
  running : Bool
deriving DecidableEq, Repr

/-- One entity (class `Character` plus the subclass fields the claims
need).  `clips` is the model's animation table (`allActions` keys with
clip durations); `forward` is the object's world direction used by the
per-tick movement; `boxMin`/`boxMax` is the local bounding box of the
`BoxHelper` geometry, and the object's world transform is modelled as the
translation by `position`.  `boxColorRed` and `wireframe` record the
cosmetic collision/defeat markings. -/
structure Character where
  name : String
  modelName : String
  kind : CharacterKind
  position : Vec3
  rotation : Vec3
  forward : Vec3
  stateAction : String
  lastAction : String
  speed : Rat
  clips : List (String × Rat)
  animAction : Option AnimAction
  animName : String
  boxMin : Vec3
  boxMax : Vec3
  boxColorRed : Bool
  wireframe : Bool
  lastTimestamp : Rat
deriving DecidableEq, Repr

/-- Duration of the named clip, when the model exposes it
(`this.animation.allActions.get(name)`). -/
def Character.clipDuration (c : Character) (nm : String) : Option Rat :=
  (c.clips.find? (fun p => p.1 == nm)).map (fun p => p.2)

/-- `changeAnimation` (src/src/game/Character.ts lines 172-195): `none`
when the clip is unknown (warning only); otherwise the action becomes the
named clip, enabled, with the requested time scale (default 1), reset and
played (time 0, running), and the `death` clip is made one-shot with
clamping. -/
def changeAnimation (c : Character) (nm : String) (options : AnimationOptions) :
    Option Character :=
  match c.clipDuration nm with
  | none => none
  | some dur =>
    some { c with
      animAction := some {
        name := nm
        time := 0
        duration := dur
        timeScale := options.timeScale.getD 1
        loopOnce := nm == "death"
        clampWhenFinished := nm == "death"
        running := true }
      animName := nm }

/-- `changeState` (src/src/game/Character.ts lines 139-170).
`walkSpeedCfg` is `this.game.walkSpeed`.  Same state without force is a
no-op; an unknown animation reverts `state.action` to the previous value;
`walk` derives speed as configured walk speed times the request's factor,
`idle` and `death` zero the speed. -/
def changeState (walkSpeedCfg : Rat) (c : Character) (st : String)
    (options : AnimationOptions) : Character :=
  if st == c.stateAction && !options.force then c
  else
    let c1 := { c with lastAction := c.stateAction, stateAction := st }
    match changeAnimation c1 st options with
    | none => { c1 with stateAction := c1.lastAction }
    | some c2 =>
      if st == "walk" then { c2 with speed := walkSpeedCfg * (options.walkSpeed.getD 1) }
      else if st == "idle" || st == "death" then { c2 with speed := 0 }
      else c2

/-- `handleAnimationFinished` (src/src/game/Character.ts lines 209-228):
when the finished action is the death clip, apply the wireframe marking
and transition back to `walk`. -/
def handleAnimationFinished (walkSpeedCfg : Rat) (c : Character) (actionName : String) :
    Character :=
  if actionName == "death" then
    changeState walkSpeedCfg { c with wireframe := true } "walk" {}
  else c

/-- The mixer tick (`this.animation.mixer.update(deltaTime)`): advance the
running action's time by elapsed time times its time scale; a one-shot
clip that reaches its duration clamps, stops, and fires the finished
notification. -/
def mixerUpdate (walkSpeedCfg : Rat) (c : Character) (dt : Rat) : Character :=
  match c.animAction with
  | none => c
  | some a =>
    if a.running then
      if a.loopOnce && decide (a.duration ≤ a.time + dt * a.timeScale) then
        handleAnimationFinished walkSpeedCfg
          { c with animAction := some { a with time := a.duration, running := false } } a.name
      else { c with animAction := some { a with time := a.time + dt * a.timeScale } }
    else c

/-- `Character.update` (src/src/game/Character.ts lines 131-137): move the
object along its world direction by the current scalar speed, then tick
the mixer. -/
def charUpdate (walkSpeedCfg : Rat) (c : Character) (dt : Rat) : Character :=
  mixerUpdate walkSpeedCfg { c with position := c.position.add (c.forward.smul c.speed) } dt

/-- `collisionDetect` (src/src/game/Character.ts lines 230-242): clone the
two local bounding boxes, take them to world space (translation by each
object's position in this embedding), and test axis-aligned overlap as
three.js `Box3.intersectsBox` does. -/
def collisionDetect (a b : Character) : Bool :=
  let amin := a.boxMin.add a.position
  let amax := a.boxMax.add a.position
  let bmin := b.boxMin.add b.position
  let bmax := b.boxMax.add b.position
  decide (amin.x ≤ bmax.x) && decide (bmin.x ≤ amax.x) &&
  decide (amin.y ≤ bmax.y) && decide (bmin.y ≤ amax.y) &&
  decide (amin.z ≤ bmax.z) && decide (bmin.z ≤ amax.z)

/-- Outcome of the collision scan on one registry entry
(src/src/game/Character.ts lines 265-275): non-NPC and already-dead
entries are skipped; on overlap the entry's box is coloured red, it
transitions to `death`, and the audio collaborator is notified with the
entry's model name. -/
def npcCollide (walkSpeedCfg : Rat) (p : Character) (c : Character) :
    Character × Option String :=
  if c.kind != CharacterKind.npc || c.stateAction == "death" then (c, none)
  else if collisionDetect p c then
    (changeState walkSpeedCfg { c with boxColorRed := true } "death" {}, some c.modelName)
  else (c, none)

/-- The simulation world as the collision scan sees it: the local player,
the other registry entries, the static `Player.updateCount`, and the
audio notifications issued so far. -/
structure World where
  walkSpeedCfg : Rat
  player : Character
  others : List Character
  updateCount : Nat
  audioEvents : List String
deriving Repr

/-- `Player.update` (src/src/game/Character.ts lines 261-279): run the
base update, then — except on the very first tick after construction
(`updateCount` starts at 0) — scan every other registry entry and apply
the collision outcome; finally bump `updateCount`. -/
def playerUpdate (w : World) (dt : Rat) : World :=
  if w.updateCount > 0 then
    { w with
      player := charUpdate w.walkSpeedCfg w.player dt
      others := (w.others.map
        (npcCollide w.walkSpeedCfg (charUpdate w.walkSpeedCfg w.player dt))).map
          (fun r => r.1)
      audioEvents := w.audioEvents ++ (w.others.map
        (npcCollide w.walkSpeedCfg (charUpdate w.walkSpeedCfg w.player dt))).filterMap
          (fun r => r.2)
      updateCount := w.updateCount + 1 }
  else { w with player := charUpdate w.walkSpeedCfg w.player dt,
                updateCount := w.updateCount + 1 }

/-- `RemotePlayer.applySnapshot` (src/src/game/Character.ts lines
289-302): record the timestamp, overwrite position and rotation from the
snapshot, and request the snapshot's state with its walk-speed factor and
time scale, forcing when the label equals the current one. -/
def applySnapshot (walkSpeedCfg : Rat) (c : Character) (s : PlayerSnapshot) : Character :=
  let c1 := { c with
    lastTimestamp := s.timestamp
    position := s.position
    rotation := s.rotation }
  changeState walkSpeedCfg c1 s.state
    { walkSpeed := some s.walkSpeed, timeScale := some s.timeScale,
      force := s.state == c1.stateAction }

/-- The slice of `Game` that `buildSnapshot` reads: the configured walk
speed (`controls.walkSpeed`) and the local player. -/
structure GameM where
  walkSpeedCfg : Rat
  player : Character
deriving Repr

/-- `currentState || activeAnimation?.name || 'idle'`
(src/src/game/Character.ts line 642). -/
def effectiveState (c : Character) : String :=
  if c.stateAction ≠ "" then c.stateAction
  else match c.animAction with
    | some a => if a.name ≠ "" then a.name else "idle"
    | none => "idle"

/-- `Game.buildSnapshot` (src/src/game/Character.ts lines 639-657): pose
from the player's object, state label with fallbacks, the active action's
time scale (default 1), a walk-speed factor guarded against a zero
configured walk speed, the player's model key and the current time. -/
def buildSnapshot (g : GameM) (id : String) (now : Rat) : PlayerSnapshot :=
  { id := id
    position := g.player.position
    rotation := g.player.rotation
    state := effectiveState g.player
    timeScale := (g.player.animAction.map (fun a => a.timeScale)).getD 1
    walkSpeed := if g.walkSpeedCfg = 0 then 0 else g.player.speed / g.walkSpeedCfg
    model := g.player.modelName
    timestamp := now }

/-! ## The local player's transition sources

Every `changeState` call the repository issues on the local player:
the constructor's initial `idle` (Character.ts line 86), `applyInput`'s
`jump`/`walk`/`idle` (Game lines 742-768), the keyboard handler's
`walk`/`idle`/`jump` (lines 1002-1027), and the per-tick update whose
mixer may fire the finished handler.  No call site requests `death` on
the player; `death` is requested only on NPCs by the collision scan. -/
inductive LocalCmd where
  | goIdle
  | goWalk (ws ts : Option Rat) (f : Bool)
  | goJump (f : Bool)
  | tick (dt : Rat)
deriving Repr

/-- Apply one local-player command. -/
def applyLocalCmd (walkSpeedCfg : Rat) (c : Character) : LocalCmd → Character
  | LocalCmd.goIdle => changeState walkSpeedCfg c "idle" {}
  | LocalCmd.goWalk ws ts f =>
      changeState walkSpeedCfg c "walk" { walkSpeed := ws, timeScale := ts, force := f }
  | LocalCmd.goJump f => changeState walkSpeedCfg c "jump" { force := f }
  | LocalCmd.tick dt => charUpdate walkSpeedCfg c dt

/-- Run a sequence of local-player commands. -/
def runLocal (walkSpeedCfg : Rat) (c : Character) : List LocalCmd → Character
  | [] => c
  | cmd :: rest => runLocal walkSpeedCfg (applyLocalCmd walkSpeedCfg c cmd) rest

/-- The labels a local player can carry: the constructor's initial empty
label and the three requested states. -/
def okLabel (s : String) : Prop := s = "" ∨ s = "idle" ∨ s = "walk" ∨ s = "jump"

instance (s : String) : Decidable (okLabel s) := by
  unfold okLabel; infer_instance

/-- Name of the active animation action (empty when none). -/
def animLabel (c : Character) : String :=
  match c.animAction with
  | some a => a.name
  | none => ""

/-- Invariant of the local player: both the discrete state label and the
active clip's name stay in the local-request alphabet. -/
def playerOK (c : Character) : Prop := okLabel c.stateAction ∧ okLabel (animLabel c)

instance (c : Character) : Decidable (playerOK c) := by
  unfold playerOK; infer_instance

/-! ## Concrete values used by the witnesses -/

/-- Animation table of a loaded model. -/
def clipsEx : List (String × Rat) :=
  [("idle", 1), ("walk", 2), ("jump", 1), ("death", 3)]

/-- A freshly initialised player-like character in `idle`. -/
def charEx : Character :=
  { name := "player"
    modelName := "cow"
    kind := CharacterKind.player
    position := ⟨0, 0, 0⟩
    rotation := ⟨0, 0, 0⟩
    forward := ⟨0, 0, -1⟩
    stateAction := "idle"
    lastAction := ""
    speed := 0
    clips := clipsEx
    animAction := some
      { name := "idle", time := 0, duration := 1, timeScale := 1,
        loopOnce := false, clampWhenFinished := false, running := true }
    animName := "idle"
    boxMin := ⟨-1, -1, -1⟩
    boxMax := ⟨1, 1, 1⟩
    boxColorRed := false
    wireframe := false
    lastTimestamp := 0 }

/-- An NPC standing next to the origin, overlapping `charEx`. -/
def npcEx : Character :=
  { charEx with name := "pug-0", modelName := "pug", kind := CharacterKind.npc,
                position := ⟨1, 0, 0⟩ }

/-- A remote proxy entity. -/
def proxyEx : Character :=
  { charEx with name := "remote-b", kind := CharacterKind.remote }

/-- A stored snapshot of connection "b". -/
def snapEx : PlayerSnapshot :=
  { id := "b", position := ⟨1, 2, 3⟩, rotation := ⟨0, 0, 0⟩, state := "walk",
    timeScale := 1, walkSpeed := 1, model := "cow", timestamp := 5 }

/-- A snapshot whose sender claims somebody else's identifier. -/
def intruderSnap : PlayerSnapshot :=
  { id := "a", position := ⟨4, 0, 4⟩, rotation := ⟨0, 0, 0⟩, state := "walk",
    timeScale := 1, walkSpeed := 1, model := "pug", timestamp := 9 }

/-- Joined connection "a" in room r1, no snapshot yet. -/
def recA : ClientRecord :=
  { id := "a", snapshot := none, roomId := "r1", joined := true, sockOpen := true }

/-- Joined connection "b" in room r1, holding `snapEx`. -/
def recB : ClientRecord :=
  { id := "b", snapshot := some snapEx, roomId := "r1", joined := true, sockOpen := true }

/-- A connection that has never joined. -/
def recC : ClientRecord :=
  { id := "c", snapshot := none, roomId := "dev-room", joined := false, sockOpen := true }

/-- A small hub state. -/
def hubEx : Hub := [recA, recB, recC]

/-- A world one tick after construction: collision scanning active. -/
def worldEx : World :=
  { walkSpeedCfg := 3, player := charEx, others := [npcEx],
    updateCount := 1, audioEvents := [] }

/-! ## Helper lemmas: state machine -/

theorem clipDuration_isSome_iff (c : Character) (nm : String) :
    (c.clipDuration nm).isSome ↔ ∃ d, c.clipDuration nm = some d := by
  cases h : c.clipDuration nm <;> simp [h]

theorem changeState_stateAction_of_isSome (wcfg : Rat) (c : Character) (st : String)
    (options : AnimationOptions) (hclip : (c.clipDuration st).isSome) :
    (changeState wcfg c st options).stateAction = st := by
  obtain ⟨d, hd⟩ := (clipDuration_isSome_iff c st).mp hclip
  have hd1 : Character.clipDuration
      { c with lastAction := c.stateAction, stateAction := st } st = some d := hd
  unfold changeState
  by_cases h0 : (st == c.stateAction && !options.force) = true
  · rw [if_pos h0]
    exact (beq_iff_eq.mp (Bool.and_elim_left h0)).symm
  · rw [if_neg h0]
    simp only [changeAnimation, hd1]
    split
    · rfl
    · split <;> rfl

theorem changeState_stateAction_of_none (wcfg : Rat) (c : Character) (st : String)
    (options : AnimationOptions) (hmiss : c.clipDuration st = none) :
    changeState wcfg c st options = if st == c.stateAction && !options.force then c
      else { c with lastAction := c.stateAction } := by
  have hm1 : Character.clipDuration
      { c with lastAction := c.stateAction, stateAction := st } st = none := hmiss
  unfold changeState
  by_cases h0 : (st == c.stateAction && !options.force) = true
  · rw [if_pos h0, if_pos h0]
  · rw [if_neg h0, if_neg h0]
    simp only [changeAnimation, hm1]

/-! ## Claim theorems: state machine basics -/

/-- C7: for every entity, requesting a transition to the current state
without force is a no-op (the character record, hence current state,
lastAction and active animation, is unchanged), while requesting the
current state with force restarts the clip: the resulting active action
is the current state's clip, reset to time 0 and playing. -/
theorem c7_self_transition (wcfg : Rat) (c : Character) (st : String)
    (ws ts : Option Rat) (hst : st = c.stateAction) :
    changeState wcfg c st { walkSpeed := ws, timeScale := ts, force := false } = c ∧
    ((c.clipDuration st).isSome →
      ∃ a, (changeState wcfg c st
              { walkSpeed := ws, timeScale := ts, force := true }).animAction = some a ∧
        a.name = st ∧ a.time = 0 ∧ a.running = true ∧
        (changeState wcfg c st
          { walkSpeed := ws, timeScale := ts, force := true }).stateAction = st) := by
  constructor
  · unfold changeState
    rw [if_pos]
    simp [hst]
  · intro hclip
    obtain ⟨d, hd⟩ := (clipDuration_isSome_iff c st).mp hclip
    have hd1 : Character.clipDuration
        { c with lastAction := c.stateAction, stateAction := st } st = some d := hd
    unfold changeState
    rw [if_neg (by simp)]
    simp only [changeAnimation, hd1]
    split
    · exact ⟨_, rfl, rfl, rfl, rfl, rfl⟩
    · split <;> exact ⟨_, rfl, rfl, rfl, rfl, rfl⟩

/-- C7 witness: forcing the current idle state on the example character
restarts the idle clip. -/
theorem c7_witness :
    changeState 3 charEx "idle"
        { walkSpeed := none, timeScale := none, force := false } = charEx ∧
    ∃ a, (changeState 3 charEx "idle"
            { walkSpeed := none, timeScale := none, force := true }).animAction = some a ∧
      a.name = "idle" ∧ a.time = 0 ∧ a.running = true ∧
      (changeState 3 charEx "idle"
        { walkSpeed := none, timeScale := none, force := true }).stateAction = "idle" := by
  have h := c7_self_transition (3 / 10) charEx "idle" none none (by decide)
  exact ⟨h.1, h.2 (by decide)⟩

/-- C8: a transition request naming an animation the model does not
expose is rejected: the state label reverts to the one held before the
request, the active animation and its name are unchanged, and the speed
is unchanged. -/
theorem c8_unknown_animation_rejected (wcfg : Rat) (c : Character) (st : String)
    (options : AnimationOptions) (hmiss : c.clipDuration st = none) :
    (changeState wcfg c st options).stateAction = c.stateAction ∧
    (changeState wcfg c st options).animAction = c.animAction ∧
    (changeState wcfg c st options).animName = c.animName ∧
    (changeState wcfg c st options).speed = c.speed := by
  rw [changeState_stateAction_of_none wcfg c st options hmiss]
  split <;> exact ⟨rfl, rfl, rfl, rfl⟩

/-- C8 witness: requesting the unknown animation "fly" on the example
character is rejected and leaves it observably unchanged. -/
theorem c8_witness :
    (changeState 3 charEx "fly" {}).stateAction = charEx.stateAction ∧
    (changeState 3 charEx "fly" {}).animAction = charEx.animAction ∧
    (changeState 3 charEx "fly" {}).animName = charEx.animName ∧
    (changeState 3 charEx "fly" {}).speed = charEx.speed :=
  c8_unknown_animation_rejected (3 / 10) charEx "fly" {} (by decide)

/-- C6: a state message from a connection that has never joined is a
no-op on the hub: no snapshot is stored and no broadcast is emitted. -/
theorem c6_state_before_join_noop (h : Hub) (cid : String) (player : PlayerSnapshot)
    (rec : ClientRecord) (hfind : findClient h cid = some rec)
    (hnj : rec.joined = false) :
    handleState h cid player = (h, []) := by
  unfold handleState
  rw [hfind]
  simp [hnj]

/-- C6 witness: connection "c" of the example hub never joined, and its
state message changes nothing. -/
theorem c6_witness : handleState hubEx "c" intruderSnap = (hubEx, []) :=
  c6_state_before_join_noop hubEx "c" intruderSnap recC (by decide) (by decide)

/-- C10: buildSnapshot is total in the configured base walk speed: a zero
configured walk speed yields factor 0 (the division is guarded);
otherwise the factor is the player's scalar speed divided by the
configured walk speed, so factor times configured walk speed recovers
the speed. -/
theorem c10_buildSnapshot_walkSpeed_total (g : GameM) (id : String) (now : Rat) :
    (g.walkSpeedCfg = 0 → (buildSnapshot g id now).walkSpeed = 0) ∧
    (g.walkSpeedCfg ≠ 0 →
      (buildSnapshot g id now).walkSpeed = g.player.speed / g.walkSpeedCfg ∧
      (buildSnapshot g id now).walkSpeed * g.walkSpeedCfg = g.player.speed) := by
  constructor
  · intro h
    simp [buildSnapshot, h]
  · intro h
    refine ⟨by simp [buildSnapshot, h], ?_⟩
    simp only [buildSnapshot, if_neg h]
    exact div_mul_cancel₀ _ h

/-- C10 witness: with configured walk speed 3 the factor times the walk
speed recovers the player speed; with walk speed 0 the factor is 0. -/
theorem c10_witness :
    (buildSnapshot { walkSpeedCfg := 3, player := charEx } "a" 0).walkSpeed *
        (3 : Rat) = charEx.speed ∧
    (buildSnapshot { walkSpeedCfg := 0, player := charEx } "a" 0).walkSpeed = 0 :=
  ⟨((c10_buildSnapshot_walkSpeed_total
      { walkSpeedCfg := 3, player := charEx } "a" 0).2 (by decide)).2,
   (c10_buildSnapshot_walkSpeed_total
      { walkSpeedCfg := 0, player := charEx } "a" 0).1 rfl⟩

/-! ## Helper lemmas: hub -/

theorem find?_cons_eq {α : Type} (p : α → Bool) (a : α) (l : List α) :
    List.find? p (a :: l) = if p a then some a else List.find? p l := by
  by_cases h : p a = true
  · rw [if_pos h, List.find?_cons_of_pos _ h]
  · rw [if_neg h, List.find?_cons_of_neg _ h]

theorem findClient_updateClient_self (h : Hub) (cid : String)
    (f : ClientRecord → ClientRecord) (hf : ∀ r, (f r).id = r.id) :
    findClient (updateClient h cid f) cid = (findClient h cid).map f := by
  induction h with
  | nil => rfl
  | cons r t ih =>
    unfold updateClient findClient at ih ⊢
    rw [List.map_cons]
    by_cases hr : (r.id == cid) = true
    · have hfr : ((f r).id == cid) = true := by rw [hf]; exact hr
      simp [find?_cons_eq, hr, hfr]
    · simp only [Bool.not_eq_true] at hr
      have hfr : ((f r).id == cid) = false := by rw [hf]; exact hr
      simpa [find?_cons_eq, hr, hfr] using ih

theorem mem_peersInRoom_not_excluded {h : Hub} {roomId : String} {cid : String}
    {c : ClientRecord} (hc : c ∈ peersInRoom h roomId (some cid)) : c.id ≠ cid := by
  unfold peersInRoom at hc
  have hcond := (List.mem_filter.mp hc).2
  simp only [Bool.and_eq_true, bne_iff_ne, ne_eq, Option.some.injEq] at hcond
  exact hcond.1.1.1

/-! ## Claim theorem: hub id overwrite -/

/-- C1: processing a state message from a joined connection stores on the
connection record, and broadcasts in every `player-update`, a snapshot
whose id is the hub-assigned connection id — the client-supplied id is
always overwritten — and the broadcast never targets the sender. -/
theorem c1_state_overwrites_id (h : Hub) (cid : String) (player : PlayerSnapshot)
    (rec : ClientRecord) (hfind : findClient h cid = some rec) (hj : rec.joined = true) :
    (∃ rec2, findClient (handleState h cid player).1 cid = some rec2 ∧
        rec2.snapshot = some { player with id := cid }) ∧
    (∀ o ∈ (handleState h cid player).2,
        o.msg = ServerMsg.playerUpdate { player with id := cid } ∧ o.recipient ≠ cid) := by
  unfold handleState
  simp only [hfind, hj, if_true]
  constructor
  · rw [findClient_updateClient_self h cid
      (fun r => { r with snapshot := some { player with id := cid } }) (fun r => rfl), hfind]
    exact ⟨_, rfl, rfl⟩
  · intro o ho
    unfold broadcast at ho
    obtain ⟨c, hc, rfl⟩ := List.mem_map.mp ho
    exact ⟨rfl, mem_peersInRoom_not_excluded hc⟩

/-- C1 witness: connection "b" sends a snapshot claiming id "a"; the
stored and broadcast snapshot carries id "b" and is not sent back to
"b". -/
theorem c1_witness :
    (∃ rec2, findClient (handleState hubEx "b" intruderSnap).1 "b" = some rec2 ∧
        rec2.snapshot = some { intruderSnap with id := "b" }) ∧
    (∀ o ∈ (handleState hubEx "b" intruderSnap).2,
        o.msg = ServerMsg.playerUpdate { intruderSnap with id := "b" } ∧
        o.recipient ≠ "b") :=
  c1_state_overwrites_id hubEx "b" intruderSnap recB (by decide) (by decide)

/-! ## Helper lemmas: join handling -/

/-- Condition under which a join leaves the previous room: the resolved
room differs and a snapshot is held. -/
def joinMoved (defRoom : String) (room : Option String) (rec : ClientRecord) : Bool :=
  rec.roomId != resolveRoom defRoom room && rec.snapshot.isSome

/-- The leave broadcast a join emits. -/
def joinLeaves (defRoom : String) (h : Hub) (cid : String) (room : Option String)
    (rec : ClientRecord) : List Output :=
  if joinMoved defRoom room rec then
    broadcast (ServerMsg.playerLeave cid) h rec.roomId (some cid)
  else []

/-- The hub state after a join is processed. -/
def joinPost (defRoom : String) (h : Hub) (cid : String) (room : Option String)
    (rec : ClientRecord) : Hub :=
  updateClient
    (if joinMoved defRoom room rec then
        updateClient h cid (fun r => { r with snapshot := none })
      else h)
    cid (fun r => { r with roomId := resolveRoom defRoom room, joined := true })

theorem handleJoin_eq (defRoom : String) (h : Hub) (cid : String) (room : Option String)
    (rec : ClientRecord) (hfind : findClient h cid = some rec) :
    handleJoin defRoom h cid room =
      (joinPost defRoom h cid room rec,
        joinLeaves defRoom h cid room rec ++
          [⟨cid, ServerMsg.initMsg cid (resolveRoom defRoom room)
            (playersInRoom (joinPost defRoom h cid room rec)
              (resolveRoom defRoom room) (some cid))⟩]) := by
  unfold handleJoin joinPost joinLeaves joinMoved
  rw [hfind]

theorem mem_playersInRoom {h : Hub} {roomId : String} {ex : Option String}
    {s : PlayerSnapshot} :
    s ∈ playersInRoom h roomId ex ↔
      ∃ r ∈ h, r.joined = true ∧ r.snapshot = some s ∧ r.roomId = roomId ∧
        some r.id ≠ ex := by
  unfold playersInRoom
  rw [List.mem_insertionSort]
  constructor
  · intro hs
    obtain ⟨c, hcmem, hcs⟩ := List.mem_filterMap.mp hs
    have hfilter := (List.mem_filter.mp hcmem).2
    simp only [Bool.and_eq_true, beq_iff_eq, bne_iff_ne] at hfilter
    obtain ⟨⟨⟨hj, _⟩, hroom⟩, hex⟩ := hfilter
    exact ⟨c, (List.mem_filter.mp hcmem).1, hj, hcs, hroom, hex⟩
  · rintro ⟨r, hrmem, hj, hsnap, hroom, hex⟩
    refine List.mem_filterMap.mpr ⟨r, List.mem_filter.mpr ⟨hrmem, ?_⟩, hsnap⟩
    simp [hj, hsnap, hroom, hex]

/-- Every stored snapshot carries its own record's id (the invariant the
state handler establishes; see C1). -/
def SnapIdInv (h : Hub) : Prop := ∀ r ∈ h, ∀ s, r.snapshot = some s → s.id = r.id

theorem snapIdInv_updateClient {h : Hub} (hinv : SnapIdInv h) (cid : String)
    (f : ClientRecord → ClientRecord) (hf : ∀ r, (f r).id = r.id)
    (hs : ∀ r, (f r).snapshot = r.snapshot ∨ (f r).snapshot = none) :
    SnapIdInv (updateClient h cid f) := by
  intro r hr s hsnap
  obtain ⟨r0, hr0, rfl⟩ := List.mem_map.mp hr
  by_cases h0 : (r0.id == cid) = true
  · rw [if_pos h0] at hsnap ⊢
    rcases hs r0 with he | he
    · rw [he] at hsnap
      rw [hf]
      exact hinv r0 hr0 s hsnap
    · rw [he] at hsnap
      exact absurd hsnap (by simp)
  · rw [if_neg h0] at hsnap ⊢
    exact hinv r0 hr0 s hsnap

theorem snapIdInv_joinPost (defRoom : String) (h : Hub) (cid : String)
    (room : Option String) (rec : ClientRecord) (hinv : SnapIdInv h) :
    SnapIdInv (joinPost defRoom h cid room rec) := by
  unfold joinPost
  by_cases hm : joinMoved defRoom room rec = true
  · rw [if_pos hm]
    exact snapIdInv_updateClient
      (snapIdInv_updateClient hinv cid (fun r => { r with snapshot := none })
        (fun r => rfl) (fun r => Or.inr rfl))
      cid (fun r => { r with roomId := resolveRoom defRoom room, joined := true })
      (fun r => rfl) (fun r => Or.inl rfl)
  · rw [if_neg hm]
    exact snapIdInv_updateClient hinv cid
      (fun r => { r with roomId := resolveRoom defRoom room, joined := true })
      (fun r => rfl) (fun r => Or.inl rfl)

/-! ## Claim theorem: init player list -/

/-- C5: the `init` reply of a join lists exactly the snapshots of the
other currently-joined, snapshot-bearing connections of the target room,
sorted ascending by snapshot timestamp, and — under the invariant that
stored snapshots carry their record's id — never the requester's own
identifier. -/
theorem c5_init_player_list (defRoom : String) (h : Hub) (cid : String)
    (room : Option String) (rec : ClientRecord)
    (hfind : findClient h cid = some rec) (hinv : SnapIdInv h) :
    (∃ pre, (handleJoin defRoom h cid room).2 =
        pre ++ [⟨cid, ServerMsg.initMsg cid (resolveRoom defRoom room)
          (playersInRoom (handleJoin defRoom h cid room).1
            (resolveRoom defRoom room) (some cid))⟩]) ∧
    (∀ s, s ∈ playersInRoom (handleJoin defRoom h cid room).1
            (resolveRoom defRoom room) (some cid) ↔
        ∃ r ∈ (handleJoin defRoom h cid room).1, r.joined = true ∧
          r.snapshot = some s ∧ r.roomId = resolveRoom defRoom room ∧ r.id ≠ cid) ∧
    List.Sorted snapLE (playersInRoom (handleJoin defRoom h cid room).1
      (resolveRoom defRoom room) (some cid)) ∧
    (∀ s ∈ playersInRoom (handleJoin defRoom h cid room).1
        (resolveRoom defRoom room) (some cid), s.id ≠ cid) := by
  have hpost : SnapIdInv (handleJoin defRoom h cid room).1 := by
    rw [handleJoin_eq defRoom h cid room rec hfind]
    exact snapIdInv_joinPost defRoom h cid room rec hinv
  refine ⟨?_, ?_, ?_, ?_⟩
  · rw [handleJoin_eq defRoom h cid room rec hfind]
    exact ⟨_, rfl⟩
  · intro s
    rw [mem_playersInRoom]
    simp only [ne_eq, Option.some.injEq]
  · unfold playersInRoom
    exact List.sorted_insertionSort snapLE _
  · intro s hs
    obtain ⟨r, hrmem, _, hsnap, _, hex⟩ := mem_playersInRoom.mp hs
    intro hcontra
    exact hex (by rw [← hpost r hrmem s hsnap, hcontra])

/-- The example hub satisfies the snapshot-id invariant: only "b" holds a
snapshot and it carries id "b". -/
theorem hubEx_snapIdInv : SnapIdInv hubEx := by
  intro r hr s hs
  simp only [hubEx, List.mem_cons, List.not_mem_nil, or_false] at hr
  rcases hr with rfl | rfl | rfl
  · exact absurd hs (by simp [recA])
  · have hse : s = snapEx := by simpa [recB] using hs.symm
    rw [hse]
    rfl
  · exact absurd hs (by simp [recC])

/-- C5 witness: connection "a" joins room r1 of the example hub; the init
player list is sorted by timestamp, and the one listed snapshot does not
carry the requester's identifier. -/
theorem c5_witness :
    List.Sorted snapLE
      (playersInRoom (handleJoin "dev-room" hubEx "a" (some "r1")).1
        (resolveRoom "dev-room" (some "r1")) (some "a")) ∧
    (snapEx ∈ playersInRoom (handleJoin "dev-room" hubEx "a" (some "r1")).1
        (resolveRoom "dev-room" (some "r1")) (some "a") → snapEx.id ≠ "a") := by
  have H := c5_init_player_list "dev-room" hubEx "a" (some "r1") recA (by decide)
    hubEx_snapIdInv
  exact ⟨H.2.2.1, fun hmem => H.2.2.2 snapEx hmem⟩

theorem countP_id_eq_one {l : List ClientRecord} {q : ClientRecord}
    (hnd : (l.map (fun r => r.id)).Nodup) (hq : q ∈ l) :
    l.countP (fun c => c.id == q.id) = 1 := by
  induction l with
  | nil => cases hq
  | cons r t ih =>
    rw [List.map_cons, List.nodup_cons] at hnd
    rw [List.countP_cons]
    rcases List.mem_cons.mp hq with rfl | hqt
    · have h0 : t.countP (fun c => c.id == q.id) = 0 := by
        rw [List.countP_eq_zero]
        intro c hc hcontra
        exact hnd.1 (by
          rw [← beq_iff_eq.mp hcontra]
          exact List.mem_map_of_mem _ hc)
      simp [h0]
    · have hrq : r.id ≠ q.id := by
        intro hcontra
        exact hnd.1 (by
          rw [hcontra]
          exact List.mem_map_of_mem _ hqt)
      simp only [ih hnd.2 hqt, beq_iff_eq, hrq, if_false]

/-- C2: switching a joined, snapshot-bearing connection to a different
room emits a single `player-leave` carrying the mover's id, delivered
exactly once to each remaining peer of the old room and never to the
mover; the mover's stored snapshot is cleared, so no player list computed
from the resulting hub state can contain a snapshot stored on the mover's
record. -/
theorem c2_room_switch_leave (defRoom : String) (h : Hub) (cid : String)
    (room : Option String) (rec : ClientRecord) (s0 : PlayerSnapshot)
    (hfind : findClient h cid = some rec) (hj : rec.joined = true)
    (hsnap : rec.snapshot = some s0)
    (hdiff : resolveRoom defRoom room ≠ rec.roomId)
    (hnodup : (h.map (fun r => r.id)).Nodup) :
    ((handleJoin defRoom h cid room).2 =
      (peersInRoom h rec.roomId (some cid)).map
        (fun c => ⟨c.id, ServerMsg.playerLeave cid⟩) ++
      [⟨cid, ServerMsg.initMsg cid (resolveRoom defRoom room)
        (playersInRoom (handleJoin defRoom h cid room).1
          (resolveRoom defRoom room) (some cid))⟩]) ∧
    (∀ q ∈ peersInRoom h rec.roomId (some cid),
      List.count (⟨q.id, ServerMsg.playerLeave cid⟩ : Output)
        (handleJoin defRoom h cid room).2 = 1) ∧
    (∀ r ∈ (handleJoin defRoom h cid room).1, r.id = cid → r.snapshot = none) ∧
    (∀ room2 ex s, s ∈ playersInRoom (handleJoin defRoom h cid room).1 room2 ex →
      ∃ r ∈ (handleJoin defRoom h cid room).1, r.id ≠ cid ∧ r.snapshot = some s) := by
  have hm : joinMoved defRoom room rec = true := by
    unfold joinMoved
    rw [hsnap]
    simp only [Option.isSome_some, Bool.and_true, bne_iff_ne, ne_eq]
    exact fun hcontra => hdiff hcontra.symm
  have hleq : joinLeaves defRoom h cid room rec =
      (peersInRoom h rec.roomId (some cid)).map
        (fun c => ⟨c.id, ServerMsg.playerLeave cid⟩) := by
    unfold joinLeaves
    rw [if_pos hm]
    rfl
  have hC : ∀ r ∈ joinPost defRoom h cid room rec, r.id = cid → r.snapshot = none := by
    intro r hr hid
    unfold joinPost at hr
    rw [if_pos hm] at hr
    unfold updateClient at hr
    obtain ⟨r1, hr1, rfl⟩ := List.mem_map.mp hr
    obtain ⟨r0, hr0, rfl⟩ := List.mem_map.mp hr1
    by_cases h0 : (r0.id == cid) = true
    · rw [if_pos h0]
      rw [if_pos (show (({ r0 with snapshot := none } : ClientRecord).id == cid) = true
        from h0)]
    · rw [if_neg h0] at hid
      rw [if_neg h0] at hid
      exact absurd (beq_iff_eq.mpr hid) h0
  have hD : ∀ room2 ex s, s ∈ playersInRoom (joinPost defRoom h cid room rec) room2 ex →
      ∃ r ∈ joinPost defRoom h cid room rec, r.id ≠ cid ∧ r.snapshot = some s := by
    intro room2 ex s hs
    obtain ⟨r, hrmem, _, hsnap2, _, _⟩ := mem_playersInRoom.mp hs
    refine ⟨r, hrmem, ?_, hsnap2⟩
    intro hcontra
    rw [hC r hrmem hcontra] at hsnap2
    cases hsnap2
  have hB : ∀ q ∈ peersInRoom h rec.roomId (some cid),
      List.count (⟨q.id, ServerMsg.playerLeave cid⟩ : Output)
        (joinLeaves defRoom h cid room rec ++
          [⟨cid, ServerMsg.initMsg cid (resolveRoom defRoom room)
            (playersInRoom (joinPost defRoom h cid room rec)
              (resolveRoom defRoom room) (some cid))⟩]) = 1 := by
    intro q hq
    rw [hleq, List.count_append]
    have hzero : List.count (⟨q.id, ServerMsg.playerLeave cid⟩ : Output)
        [⟨cid, ServerMsg.initMsg cid (resolveRoom defRoom room)
          (playersInRoom (joinPost defRoom h cid room rec)
            (resolveRoom defRoom room) (some cid))⟩] = 0 := by
      simp [List.count_cons, Output.mk.injEq]
    have hone : List.count (⟨q.id, ServerMsg.playerLeave cid⟩ : Output)
        ((peersInRoom h rec.roomId (some cid)).map
          (fun c => ⟨c.id, ServerMsg.playerLeave cid⟩)) = 1 := by
      rw [List.count_eq_countP, List.countP_map]
      have hpnd : ((peersInRoom h rec.roomId (some cid)).map (fun r => r.id)).Nodup :=
        List.Nodup.sublist (List.Sublist.map _ (List.filter_sublist h)) hnodup
      refine (List.countP_congr ?_).trans (countP_id_eq_one hpnd hq)
      intro c hc
      simp [Function.comp, Output.mk.injEq]
    rw [hzero, hone]
  rw [handleJoin_eq defRoom h cid room rec hfind]
  exact ⟨by rw [hleq], hB, hC, hD⟩

/-- C2 witness: connection "b" (room r1, snapshot stored) joins with an
absent room name, moving to the default room; peer "a" of the old room
receives exactly one `player-leave` for "b". -/
theorem c2_witness :
    List.count (⟨recA.id, ServerMsg.playerLeave "b"⟩ : Output)
      (handleJoin "dev-room" hubEx "b" none).2 = 1 :=
  (c2_room_switch_leave "dev-room" hubEx "b" none recB snapEx (by decide) (by decide)
    (by decide) (by decide) (by decide)).2.1 recA (by decide)

/-! ## Helper lemmas: local-player label invariant -/

theorem okLabel_ne_death {s : String} (h : okLabel s) : s ≠ "death" := by
  rcases h with h | h | h | h <;> subst h <;> decide

theorem playerOK_changeState (wcfg : Rat) (c : Character) (st : String)
    (options : AnimationOptions) (hst : okLabel st) (hc : playerOK c) :
    playerOK (changeState wcfg c st options) := by
  unfold changeState
  split
  · exact hc
  · cases hd : Character.clipDuration
        { c with lastAction := c.stateAction, stateAction := st } st with
    | none =>
      simp only [changeAnimation, hd]
      exact ⟨hc.1, hc.2⟩
    | some d =>
      simp only [changeAnimation, hd]
      split
      · exact ⟨hst, hst⟩
      · split
        · exact ⟨hst, hst⟩
        · exact ⟨hst, hst⟩

theorem playerOK_handleFinished (wcfg : Rat) (c : Character) (nm : String)
    (hc : playerOK c) : playerOK (handleAnimationFinished wcfg c nm) := by
  unfold handleAnimationFinished
  split
  · exact playerOK_changeState wcfg _ "walk" {} (Or.inr (Or.inr (Or.inl rfl))) ⟨hc.1, hc.2⟩
  · exact hc

theorem playerOK_mixerUpdate (wcfg : Rat) (c : Character) (dt : Rat)
    (hc : playerOK c) : playerOK (mixerUpdate wcfg c dt) := by
  unfold mixerUpdate
  split
  · exact hc
  · rename_i a ha
    have hname : okLabel a.name := by
      have h2 := hc.2
      unfold animLabel at h2
      rw [ha] at h2
      exact h2
    split
    · split
      · exact playerOK_handleFinished wcfg _ a.name ⟨hc.1, hname⟩
      · exact ⟨hc.1, hname⟩
    · exact hc

theorem playerOK_charUpdate (wcfg : Rat) (c : Character) (dt : Rat) (hc : playerOK c) :
    playerOK (charUpdate wcfg c dt) := by
  unfold charUpdate
  exact playerOK_mixerUpdate wcfg _ dt ⟨hc.1, hc.2⟩

theorem playerOK_applyLocalCmd (wcfg : Rat) (c : Character) (cmd : LocalCmd)
    (hc : playerOK c) : playerOK (applyLocalCmd wcfg c cmd) := by
  cases cmd with
  | goIdle => exact playerOK_changeState _ _ _ _ (Or.inr (Or.inl rfl)) hc
  | goWalk ws ts f => exact playerOK_changeState _ _ _ _ (Or.inr (Or.inr (Or.inl rfl))) hc
  | goJump f => exact playerOK_changeState _ _ _ _ (Or.inr (Or.inr (Or.inr rfl))) hc
  | tick dt => exact playerOK_charUpdate _ _ _ hc

theorem playerOK_runLocal (wcfg : Rat) (c : Character) (cmds : List LocalCmd)
    (hc : playerOK c) : playerOK (runLocal wcfg c cmds) := by
  induction cmds generalizing c with
  | nil => exact hc
  | cons cmd rest ih => exact ih _ (playerOK_applyLocalCmd wcfg c cmd hc)

theorem effectiveState_ne_death (c : Character) (hc : playerOK c) :
    effectiveState c ≠ "death" := by
  unfold effectiveState
  split
  · exact okLabel_ne_death hc.1
  · split
    · rename_i a ha
      have hname : okLabel a.name := by
        have h2 := hc.2
        unfold animLabel at h2
        rw [ha] at h2
        exact h2
      split
      · exact okLabel_ne_death hname
      · decide
    · decide

/-! ## Claim theorem: death reachability -/

/-- C3: the Remote Reconciliation path never requests `death`: every
snapshot the hub relays for a local player driven by the repository's
own call sites carries a state label other than `death` (and
applySnapshot requests exactly the snapshot's label); and an entity whose
one-shot death clip completes transitions back to `walk` automatically
through the finished notification of the mixer tick. -/
theorem c3_death_local_only (wcfg : Rat) (p0 : Character) (cmds : List LocalCmd)
    (id0 : String) (now : Rat) (h : Hub) (cid : String) (rec : ClientRecord)
    (hok : playerOK p0) (hfind : findClient h cid = some rec) (hj : rec.joined = true)
    (wcfg2 : Rat) (c : Character) (a : AnimAction) (dt d : Rat)
    (ha : c.animAction = some a) (hnm : a.name = "death") (hone : a.loopOnce = true)
    (hrun : a.running = true) (hdone : a.duration ≤ a.time + dt * a.timeScale)
    (hwalk : c.clipDuration "walk" = some d) :
    (∀ o ∈ (handleState h cid
        (buildSnapshot ⟨wcfg, runLocal wcfg p0 cmds⟩ id0 now)).2,
      ∀ s, o.msg = ServerMsg.playerUpdate s → s.state ≠ "death") ∧
    (mixerUpdate wcfg2 c dt).stateAction = "walk" := by
  constructor
  · intro o ho s hmsg
    unfold handleState at ho
    simp only [hfind, hj, if_true] at ho
    unfold broadcast at ho
    obtain ⟨q, hq, rfl⟩ := List.mem_map.mp ho
    have hs : s = { buildSnapshot ⟨wcfg, runLocal wcfg p0 cmds⟩ id0 now with id := cid } := by
      cases hmsg
      rfl
    rw [hs]
    exact effectiveState_ne_death _ (playerOK_runLocal wcfg p0 cmds hok)
  · simp only [mixerUpdate, ha]
    rw [if_pos hrun]
    rw [if_pos (by
      rw [hone]
      simp only [Bool.true_and, decide_eq_true_eq]
      exact hdone)]
    rw [hnm]
    unfold handleAnimationFinished
    rw [if_pos (by rfl)]
    exact changeState_stateAction_of_isSome wcfg2 _ "walk" {}
      (Option.isSome_iff_exists.mpr ⟨d, hwalk⟩)

/-- C3 witness: an NPC sent to `death` returns to `walk` once its
one-shot clip runs out during a mixer tick; the theorem is applied with a
player history and a joined hub connection, all hypotheses discharged on
concrete values. -/
theorem c3_witness :
    (mixerUpdate 3 (changeState 3 npcEx "death" {}) 5).stateAction = "walk" :=
  (c3_death_local_only 3 charEx [LocalCmd.goWalk (some 1) (some 1) true] "z" 7
    hubEx "b" recB (by decide) (by decide) (by decide)
    3 (changeState 3 npcEx "death" {})
    { name := "death", time := 0, duration := 3, timeScale := 1,
      loopOnce := true, clampWhenFinished := true, running := true }
    5 2 (by decide) rfl rfl rfl (by norm_num) (by decide)).2

/-! ## Helper lemmas: pose preservation -/

theorem changeState_preserves_pose (wcfg : Rat) (c : Character) (st : String)
    (options : AnimationOptions) :
    (changeState wcfg c st options).position = c.position ∧
    (changeState wcfg c st options).rotation = c.rotation := by
  unfold changeState
  split
  · exact ⟨rfl, rfl⟩
  · cases hd : Character.clipDuration
        { c with lastAction := c.stateAction, stateAction := st } st with
    | none => simp [changeAnimation, hd]
    | some d =>
      simp only [changeAnimation, hd]
      split
      · simp
      · split <;> simp

theorem applySnapshot_pose (wcfg : Rat) (c : Character) (s : PlayerSnapshot) :
    (applySnapshot wcfg c s).position = s.position ∧
    (applySnapshot wcfg c s).rotation = s.rotation := by
  unfold applySnapshot
  exact ⟨(changeState_preserves_pose wcfg _ s.state _).1,
    (changeState_preserves_pose wcfg _ s.state _).2⟩

theorem applySnapshot_stateAction (wcfg : Rat) (c : Character) (s : PlayerSnapshot)
    (hclip : (c.clipDuration s.state).isSome) :
    (applySnapshot wcfg c s).stateAction = s.state := by
  unfold applySnapshot
  exact changeState_stateAction_of_isSome wcfg _ s.state _ hclip

theorem effectiveState_of_ne (c : Character) (hne : c.stateAction ≠ "") :
    effectiveState c = c.stateAction := by
  unfold effectiveState
  rw [if_pos hne]

/-! ## Claim theorem: snapshot round-trip -/

/-- C4: a snapshot built from the local player's pose, relayed through
the hub's state handler, and applied on a proxy entity by Remote
Reconciliation reproduces the original position, orientation and
discrete state label exactly (rationals model the doubles, so the
floating-point tolerance is exact equality). -/
theorem c4_roundtrip (g : GameM) (id0 : String) (now : Rat) (h : Hub) (cid : String)
    (rec : ClientRecord) (proxy : Character) (wcfg2 : Rat)
    (hfind : findClient h cid = some rec) (hj : rec.joined = true)
    (hne : g.player.stateAction ≠ "")
    (hclip : (proxy.clipDuration g.player.stateAction).isSome) :
    ∀ o ∈ (handleState h cid (buildSnapshot g id0 now)).2,
      ∃ s, o.msg = ServerMsg.playerUpdate s ∧
        (applySnapshot wcfg2 proxy s).position = g.player.position ∧
        (applySnapshot wcfg2 proxy s).rotation = g.player.rotation ∧
        (applySnapshot wcfg2 proxy s).stateAction = g.player.stateAction := by
  intro o ho
  unfold handleState at ho
  simp only [hfind, hj, if_true] at ho
  unfold broadcast at ho
  obtain ⟨q, hq, rfl⟩ := List.mem_map.mp ho
  have heff : ({ buildSnapshot g id0 now with id := cid } : PlayerSnapshot).state
      = g.player.stateAction := effectiveState_of_ne _ hne
  refine ⟨_, rfl, ?_, ?_, ?_⟩
  · exact (applySnapshot_pose wcfg2 proxy _).1
  · exact (applySnapshot_pose wcfg2 proxy _).2
  · rw [applySnapshot_stateAction wcfg2 proxy _ (by rw [heff]; exact hclip)]
    exact heff

/-- Local player pose used by the C4 witness. -/
def gEx4 : GameM :=
  { walkSpeedCfg := 3, player := { charEx with position := ⟨1, 2, 3⟩, rotation := ⟨0, 1, 0⟩ } }

/-- C4 witness: peer "a" receives the relayed snapshot of "b"'s player
and applying it to a proxy reproduces pose and state label. -/
theorem c4_witness :
    ∃ s, (Output.mk "a" (ServerMsg.playerUpdate
        { buildSnapshot gEx4 "z" 7 with id := "b" })).msg = ServerMsg.playerUpdate s ∧
      (applySnapshot 3 proxyEx s).position = gEx4.player.position ∧
      (applySnapshot 3 proxyEx s).rotation = gEx4.player.rotation ∧
      (applySnapshot 3 proxyEx s).stateAction = gEx4.player.stateAction :=
  c4_roundtrip gEx4 "z" 7 hubEx "b" recB proxyEx 3 (by decide) (by decide) (by decide)
    (by decide) _ (List.mem_singleton.mpr rfl)

/-! ## Claim theorem: collision policy -/

/-- C9: the collision scan runs only from the local player's update, is
skipped on the very first tick after construction, skips non-NPC and
already-dead actors, leaves non-overlapping NPCs untouched, and on a
world-space axis-aligned bounding-box overlap sends the NPC to `death`
and notifies the audio collaborator with that NPC's model name. -/
theorem c9_collision_policy (w : World) (dt : Rat) :
    (w.updateCount = 0 →
      (playerUpdate w dt).others = w.others ∧
      (playerUpdate w dt).audioEvents = w.audioEvents) ∧
    (0 < w.updateCount →
      (playerUpdate w dt).others = w.others.map
        (fun c => (npcCollide w.walkSpeedCfg (charUpdate w.walkSpeedCfg w.player dt) c).1)) ∧
    (∀ c, c.kind ≠ CharacterKind.npc ∨ c.stateAction = "death" →
      npcCollide w.walkSpeedCfg (charUpdate w.walkSpeedCfg w.player dt) c = (c, none)) ∧
    (∀ c, c.kind = CharacterKind.npc → c.stateAction ≠ "death" →
      collisionDetect (charUpdate w.walkSpeedCfg w.player dt) c = false →
      npcCollide w.walkSpeedCfg (charUpdate w.walkSpeedCfg w.player dt) c = (c, none)) ∧
    (∀ c ∈ w.others, 0 < w.updateCount → c.kind = CharacterKind.npc →
      c.stateAction ≠ "death" →
      collisionDetect (charUpdate w.walkSpeedCfg w.player dt) c = true →
      (c.clipDuration "death").isSome →
      (npcCollide w.walkSpeedCfg (charUpdate w.walkSpeedCfg w.player dt) c).1.stateAction
        = "death" ∧
      (npcCollide w.walkSpeedCfg (charUpdate w.walkSpeedCfg w.player dt) c).2
        = some c.modelName ∧
      c.modelName ∈ (playerUpdate w dt).audioEvents) := by
  refine ⟨?_, ?_, ?_, ?_, ?_⟩
  · intro h0
    unfold playerUpdate
    rw [if_neg (by rw [h0]; exact lt_irrefl 0)]
    exact ⟨rfl, rfl⟩
  · intro hpos
    unfold playerUpdate
    rw [if_pos hpos]
    rw [List.map_map]
    rfl
  · intro c hcsk
    unfold npcCollide
    rw [if_pos (by
      simp only [Bool.or_eq_true, bne_iff_ne, beq_iff_eq]
      exact hcsk)]
  · intro c hk hnd hcol
    unfold npcCollide
    rw [if_neg (by simp [hk, hnd]), if_neg (by simp [hcol])]
  · intro c hcmem hpos hk hnd hcol hdeath
    have hres : npcCollide w.walkSpeedCfg (charUpdate w.walkSpeedCfg w.player dt) c =
        (changeState w.walkSpeedCfg { c with boxColorRed := true } "death" {},
          some c.modelName) := by
      unfold npcCollide
      rw [if_neg (by simp [hk, hnd]), if_pos hcol]
    refine ⟨?_, ?_, ?_⟩
    · rw [hres]
      exact changeState_stateAction_of_isSome _ _ "death" {} hdeath
    · rw [hres]
    · unfold playerUpdate
      rw [if_pos hpos]
      refine List.mem_append.mpr (Or.inr ?_)
      refine List.mem_filterMap.mpr
        ⟨npcCollide w.walkSpeedCfg (charUpdate w.walkSpeedCfg w.player dt) c,
          List.mem_map_of_mem _ hcmem, ?_⟩
      rw [hres]

/-- C9 witness: in the example world (second tick), the overlapping NPC
is sent to `death`, and the audio collaborator is notified with its model
name "pug". -/
theorem c9_witness :
    (npcCollide worldEx.walkSpeedCfg
      (charUpdate worldEx.walkSpeedCfg worldEx.player 1) npcEx).1.stateAction = "death" ∧
    (npcCollide worldEx.walkSpeedCfg
      (charUpdate worldEx.walkSpeedCfg worldEx.player 1) npcEx).2 = some npcEx.modelName ∧
    npcEx.modelName ∈ (playerUpdate worldEx 1).audioEvents :=
  (c9_collision_policy worldEx 1).2.2.2.2 npcEx (List.mem_singleton.mpr rfl)
    (by decide) rfl (by decide)
    (by norm_num [collisionDetect, charUpdate, mixerUpdate, worldEx, charEx, npcEx,
      Vec3.add, Vec3.smul])
    (by decide)

end FFC
